import Mathlib

/-!
Verification of the search-suggestion aggregator of `SearchBar.tsx`
(movie-planet repository).

The component is shallowly embedded: its pure helpers become Lean
functions on `String` / `List`, the React state updates become a step
function on an explicit state record, and the two remote lookups become
an environment value describing each fetch's outcome.  JavaScript
strings are modelled by Lean `String`; `trim`, `toLowerCase` and
`includes` are modelled on the character list (ASCII case folding and
the ASCII whitespace class, which cover every string the component
manipulates).
-/

/-! ### JavaScript string primitives -/

/-- Whitespace class used by `String.prototype.trim` (ASCII part:
space, tab, LF, VT, FF, CR). -/
def jsWhitespace (c : Char) : Bool :=
  c.toNat == 32 || c.toNat == 9 || c.toNat == 10 ||
  c.toNat == 11 || c.toNat == 12 || c.toNat == 13

/-- ASCII case folding of one character, as `String.prototype.toLowerCase`
acts on the ASCII range. -/
def charLower : Char → Char
  | 'A' => 'a' | 'B' => 'b' | 'C' => 'c' | 'D' => 'd' | 'E' => 'e'
  | 'F' => 'f' | 'G' => 'g' | 'H' => 'h' | 'I' => 'i' | 'J' => 'j'
  | 'K' => 'k' | 'L' => 'l' | 'M' => 'm' | 'N' => 'n' | 'O' => 'o'
  | 'P' => 'p' | 'Q' => 'q' | 'R' => 'r' | 'S' => 's' | 'T' => 't'
  | 'U' => 'u' | 'V' => 'v' | 'W' => 'w' | 'X' => 'x' | 'Y' => 'y'
  | 'Z' => 'z'
  | c => c

/-- Model of `s.toLowerCase()`. -/
def jsToLower (s : String) : String :=
  String.mk (s.data.map charLower)

/-- Model of `s.trim()`: drop leading and trailing whitespace. -/
def jsTrim (s : String) : String :=
  String.mk (((s.data.dropWhile jsWhitespace).reverse.dropWhile jsWhitespace).reverse)

/-- Does `needle` occur at the very start of `hay`? -/
def firstSeg : List Char → List Char → Bool
  | [], _ => true
  | _ :: _, [] => false
  | a :: as, b :: bs => a == b && firstSeg as bs

/-- Does `needle` occur contiguously anywhere in `hay`? -/
def occursIn (needle : List Char) : List Char → Bool
  | [] => firstSeg needle []
  | c :: rest => firstSeg needle (c :: rest) || occursIn needle rest

/-- Model of `s.includes(sub)`. -/
def jsIncludes (s sub : String) : Bool :=
  occursIn sub.data s.data

theorem firstSeg_iff (needle hay : List Char) :
    firstSeg needle hay = true ↔ ∃ post, hay = needle ++ post := by
  induction needle generalizing hay with
  | nil => simp [firstSeg]
  | cons a as ih =>
    cases hay with
    | nil => simp [firstSeg]
    | cons b bs =>
      simp only [firstSeg, Bool.and_eq_true, beq_iff_eq, ih]
      constructor
      · rintro ⟨rfl, post, rfl⟩
        exact ⟨post, rfl⟩
      · rintro ⟨post, h⟩
        cases h
        exact ⟨rfl, post, rfl⟩

theorem occursIn_iff (needle hay : List Char) :
    occursIn needle hay = true ↔ ∃ pre post, hay = pre ++ needle ++ post := by
  induction hay with
  | nil =>
    simp only [occursIn, firstSeg_iff]
    constructor
    · rintro ⟨post, h⟩
      exact ⟨[], post, by simpa using h⟩
    · rintro ⟨pre, post, h⟩
      refine ⟨post, ?_⟩
      have hlen : pre.length + (needle.length + post.length) = 0 := by
        simpa [List.length_append] using congrArg List.length h.symm
      have hpre : pre = [] := List.eq_nil_of_length_eq_zero (by omega)
      subst hpre
      simpa using h
  | cons c rest ih =>
    simp only [occursIn, Bool.or_eq_true, firstSeg_iff, ih]
    constructor
    · rintro (⟨post, h⟩ | ⟨pre, post, rfl⟩)
      · exact ⟨[], post, by simpa using h⟩
      · exact ⟨c :: pre, post, rfl⟩
    · rintro ⟨pre, post, h⟩
      cases pre with
      | nil => exact Or.inl ⟨post, by simpa using h⟩
      | cons p ps =>
        right
        refine ⟨ps, post, ?_⟩
        have := h
        simp only [List.cons_append] at this
        exact (List.cons_eq_cons.mp this).2

theorem occursIn_trans {a b c : List Char}
    (hab : occursIn b a = true) (hbc : occursIn c b = true) :
    occursIn c a = true := by
  rw [occursIn_iff] at *
  obtain ⟨p1, s1, rfl⟩ := hab
  obtain ⟨p2, s2, rfl⟩ := hbc
  exact ⟨p1 ++ p2, s2 ++ s1, by simp⟩

theorem occursIn_length_le {needle hay : List Char}
    (h : occursIn needle hay = true) : needle.length ≤ hay.length := by
  rw [occursIn_iff] at h
  obtain ⟨pre, post, rfl⟩ := h
  simp only [List.length_append]
  omega

theorem occursIn_antisymm {a b : List Char}
    (hab : occursIn b a = true) (hba : occursIn a b = true) : a = b := by
  have h1 := occursIn_length_le hab
  have h2 := occursIn_length_le hba
  rw [occursIn_iff] at hab
  obtain ⟨pre, post, h⟩ := hab
  have hlen := congrArg List.length h
  simp only [List.length_append] at hlen
  have hpre : pre = [] := List.eq_nil_of_length_eq_zero (by omega)
  have hpost : post = [] := List.eq_nil_of_length_eq_zero (by omega)
  subst hpre; subst hpost
  simpa using h

theorem dropWhile_exists_pre (p : Char → Bool) (l : List Char) :
    ∃ pre, l = pre ++ l.dropWhile p := by
  induction l with
  | nil => exact ⟨[], rfl⟩
  | cons a t ih =>
    by_cases h : p a = true
    · obtain ⟨pre, hpre⟩ := ih
      exact ⟨a :: pre, by simp [List.dropWhile_cons, h, ← hpre]⟩
    · exact ⟨[], by simp [List.dropWhile_cons, h]⟩

/-- The trimmed string occurs contiguously inside the original. -/
theorem trim_occursIn (s : String) :
    occursIn (jsTrim s).data s.data = true := by
  rw [occursIn_iff]
  obtain ⟨pre, hpre⟩ := dropWhile_exists_pre jsWhitespace s.data
  obtain ⟨pre2, hpre2⟩ :=
    dropWhile_exists_pre jsWhitespace (s.data.dropWhile jsWhitespace).reverse
  refine ⟨pre, pre2.reverse, ?_⟩
  have hmid : s.data.dropWhile jsWhitespace = (jsTrim s).data ++ pre2.reverse := by
    have := congrArg List.reverse hpre2
    simpa [jsTrim, List.reverse_append] using this
  rw [hpre, hmid, List.append_assoc]

theorem jsWhitespace_charLower (c : Char) :
    jsWhitespace (charLower c) = jsWhitespace c := by
  unfold charLower
  split <;> rfl

theorem charLower_comp_ws : jsWhitespace ∘ charLower = jsWhitespace :=
  funext jsWhitespace_charLower

/-- Lowercasing commutes with trimming (case folding preserves the
whitespace class). -/
theorem jsTrim_jsToLower (s : String) :
    jsTrim (jsToLower s) = jsToLower (jsTrim s) := by
  apply String.ext
  simp only [jsTrim, jsToLower, List.dropWhile_map, charLower_comp_ws,
    ← List.map_reverse]

/-! ### Data model (`SearchBar.tsx` interfaces and constants) -/

/-- Category tag of a `SearchSuggestion` (`type` union in the source). -/
inductive SuggestionType where
  | recent | trending | movie | person | genre
deriving DecidableEq, Repr

/-- The `SearchSuggestion` interface. -/
structure SearchSuggestion where
  id : String
  text : String
  type : SuggestionType
  year : Option Int := none
  rating : Option Rat := none
  posterUrl : Option String := none
deriving DecidableEq, Repr

/-- The `TMDBMovie` interface; `poster_path` is `string | null`.
TMDB numeric identifiers are nonnegative integers, modelled as `Nat`. -/
structure TMDBMovie where
  id : Nat
  title : String
  release_date : String
  vote_average : Rat
  poster_path : Option String
deriving DecidableEq, Repr

/-- The `TMDBPerson` interface. -/
structure TMDBPerson where
  id : Nat
  name : String
  known_for_department : String
deriving DecidableEq, Repr

/-- Constant `TMDB_IMAGE_BASE_URL`. -/
def TMDB_IMAGE_BASE_URL : String := "https://image.tmdb.org/t/p/w92"

/-- Constant `trendingSearches`. -/
def trendingSearches : List String :=
  ["Marvel", "Action", "Comedy", "Horror", "Sci-Fi", "Drama",
   "Thriller", "Animation", "Romance"]

/-- Constant `popularGenres`. -/
def popularGenres : List String :=
  ["Action", "Adventure", "Animation", "Comedy", "Crime", "Documentary",
   "Drama", "Family", "Fantasy", "History", "Horror", "Music", "Mystery",
   "Romance", "Science Fiction", "TV Movie", "Thriller", "War", "Western"]

/-- Year extraction `new Date(d).getFullYear()`, modelled for the ISO
`YYYY-MM-DD` strings the TMDB service returns: the value of the leading
four decimal digits. -/
def releaseDateYear (d : String) : Int :=
  (d.data.take 4).foldl (fun a c => 10 * a + ((c.toNat : Int) - 48)) 0

/-- Rounding `Math.round(v * 10) / 10` (JS rounds half toward +inf,
as does Mathlib's `round`). -/
def roundToTenth (v : Rat) : Rat :=
  ((round (v * 10) : Int) : Rat) / 10

/-- Suggestion built from one movie record (the `suggestions.push` in the
movie loop).  JS truthiness: an empty `release_date` and a zero
`vote_average` yield `undefined`. -/
def movieSuggestionOf (m : TMDBMovie) : SearchSuggestion :=
  { id := "movie-" ++ Nat.repr m.id
    text := m.title
    type := .movie
    year := if m.release_date = "" then none else some (releaseDateYear m.release_date)
    rating := if m.vote_average = 0 then none else some (roundToTenth m.vote_average)
    posterUrl := m.poster_path.map (fun p => TMDB_IMAGE_BASE_URL ++ p) }

/-- Suggestion built from one person record. -/
def personSuggestionOf (p : TMDBPerson) : SearchSuggestion :=
  { id := "person-" ++ Nat.repr p.id
    text := p.name
    type := .person }

/-- The `matchingGenres` computation inside `fetchTMDBSuggestions`:
case-insensitive substring matches of the (raw) search query that are
not case-insensitively equal to it, capped at 2. -/
def matchingGenres (searchQuery : String) : List String :=
  (popularGenres.filter (fun genre =>
    jsIncludes (jsToLower genre) (jsToLower searchQuery) &&
    jsToLower genre != jsToLower searchQuery)).take 2

/-- Genre suggestions pushed by `matchingGenres.forEach((genre, index) => ...)`;
the identifier uses the position index. -/
def genreSuggestionsOf (searchQuery : String) : List SearchSuggestion :=
  (matchingGenres searchQuery).enum.map (fun ig =>
    { id := "genre-" ++ Nat.repr ig.1, text := ig.2, type := .genre })

/-- Outcome of one `fetch` call: the promise rejects (network error and
the like), resolves with a non-ok response, or resolves ok with an
optional `results` array (`data.results?.slice(...) || []` treats a
missing field as empty). -/
inductive FetchOutcome (α : Type) where
  | rejected : FetchOutcome α
  | notOk : FetchOutcome α
  | ok (results : Option (List α)) : FetchOutcome α
deriving DecidableEq, Repr

/-- Result page carried by an outcome (`data.results?.… || []`): empty
unless the response was ok with a present `results` field. -/
def FetchOutcome.page {α : Type} : FetchOutcome α → List α
  | .ok (some l) => l
  | _ => []

/-- Environment one run of `fetchTMDBSuggestions` executes in: the
outcome of the movie-search fetch and of the person-search fetch. -/
structure RemoteEnv where
  movieFetch : FetchOutcome TMDBMovie
  personFetch : FetchOutcome TMDBPerson
deriving DecidableEq, Repr

/-- Model of `fetchTMDBSuggestions`.  `hasApiKey` is the truthiness of
`TMDB_API_KEY`.  The single `try` block wraps both awaited fetches, so a
rejection of either one jumps to the `catch` and returns `[]`; a non-ok
response merely skips that endpoint's block.  Genre matches are pushed
after both remote blocks, inside the same `try`. -/
def fetchTMDBSuggestions (hasApiKey : Bool) (searchQuery : String)
    (env : RemoteEnv) : List SearchSuggestion :=
  if hasApiKey = false ∨ jsTrim searchQuery = "" then []
  else
    match env.movieFetch, env.personFetch with
    | .rejected, _ => []
    | _, .rejected => []
    | mf, pf =>
        (mf.page.take 4).map movieSuggestionOf
          ++ (pf.page.take 3).map personSuggestionOf
          ++ genreSuggestionsOf searchQuery

/-- Number of HTTP requests one run of `fetchTMDBSuggestions` issues:
none without a key or for a whitespace query; the person fetch is only
reached when the movie fetch did not reject. -/
def remoteRequestCount (hasApiKey : Bool) (searchQuery : String)
    (env : RemoteEnv) : Nat :=
  if hasApiKey = false ∨ jsTrim searchQuery = "" then 0
  else
    match env.movieFetch with
    | .rejected => 1
    | _ => 2

/-- Model of `getFilteredSuggestions`: matching recent searches first
(case-insensitive substring matches of the query that are not equal to
it), then the stored API suggestions, truncated to 8. -/
def getFilteredSuggestions (query : String) (recentSearches : List String)
    (apiSuggestions : List SearchSuggestion) : List SearchSuggestion :=
  if jsTrim query = "" then []
  else
    let queryLower := jsTrim (jsToLower query)
    ((recentSearches.filter (fun search =>
        jsIncludes (jsToLower search) queryLower &&
        jsToLower search != queryLower)).map
      (fun search => ({ id := "recent-" ++ search, text := search,
                        type := SuggestionType.recent } : SearchSuggestion))
      ++ apiSuggestions).take 8

/-- The updater passed to `setRecentSearches` by the debounced body,
`handleKeyDown` (Enter) and `handleSuggestionClick`: push to the front,
remove any prior occurrence (case-sensitive `!==`), keep 5. -/
def pushRecentSearch (text : String) (prev : List String) : List String :=
  (text :: prev.filter (fun item => item != text)).take 5

/-! ### Component state machine

The claim-relevant React state of `SearchBar` (`query`,
`recentSearches`, `apiSuggestions`, `isLoading`) together with
observables: the pending lodash-debounce timers (delay, captured text),
the log of `onSearch` invocations (most recent first) and the number of
HTTP requests issued.  Purely visual state (`showSuggestions`,
`isFocused`, focus/blur of the input element) carries no claim content
and is omitted. -/

/-- Debounce delay passed to `debounce(..., 500)`. -/
def debounceWaitMs : Nat := 500

/-- Cancelling a debounced function (`debouncedSearch.cancel()`) drops
every pending timer. -/
def debCancel (_timers : List (Nat × String)) : List (Nat × String) := []

/-- Arming one trailing-edge timer capturing the argument text. -/
def debArm (timers : List (Nat × String)) (text : String) : List (Nat × String) :=
  timers ++ [(debounceWaitMs, text)]

/-- Invoking the debounced function (`debouncedSearch(newQuery)`):
lodash restarts its single timer, i.e. cancels any pending timer and
arms a fresh one with the latest argument. -/
def debCall (timers : List (Nat × String)) (text : String) : List (Nat × String) :=
  debArm (debCancel timers) text

/-- Claim-relevant component state. -/
structure SBState where
  query : String
  recentSearches : List String
  apiSuggestions : List SearchSuggestion
  isLoading : Bool
  pendingTimers : List (Nat × String)
  emittedSearches : List String
  requestCount : Nat
deriving DecidableEq, Repr

/-- Initial state (`useState` initialisers). -/
def initState : SBState :=
  { query := "", recentSearches := [], apiSuggestions := [],
    isLoading := false, pendingTimers := [], emittedSearches := [],
    requestCount := 0 }

/-- Events the embedded handlers respond to.  `timerElapse` is the
trailing edge of the pending debounce timer; it carries the remote
environment the debounced body's fetch runs in. -/
inductive SBEvent where
  | inputChange (text : String)
  | pressEnter
  | pressEscape
  | suggestionClick (text : String)
  | clearClick
  | timerElapse (env : RemoteEnv)

/-- One step of the component, faithful to the handlers in the source.
`hasApiKey` is the truthiness of the `TMDB_API_KEY` configuration. -/
def stepSB (hasApiKey : Bool) (s : SBState) : SBEvent → SBState
  | .inputChange t =>
      -- handleInputChange: set the query; non-empty trim arms the
      -- debounce, otherwise cancel, clear suggestions, emit "".
      if jsTrim t = "" then
        { s with query := t, isLoading := false, apiSuggestions := [],
                 pendingTimers := debCancel s.pendingTimers,
                 emittedSearches := "" :: s.emittedSearches }
      else
        { s with query := t, isLoading := true,
                 pendingTimers := debCall s.pendingTimers t }
  | .pressEnter =>
      -- handleKeyDown, "Enter" branch: only acts on a non-empty trim.
      if jsTrim s.query = "" then s
      else
        { s with isLoading := false,
                 pendingTimers := debCancel s.pendingTimers,
                 emittedSearches := jsTrim s.query :: s.emittedSearches,
                 recentSearches := pushRecentSearch (jsTrim s.query) s.recentSearches }
  | .pressEscape =>
      -- handleKeyDown, "Escape" branch: closes the dropdown only.
      s
  | .suggestionClick t =>
      -- handleSuggestionClick: cancel, emit the clicked text verbatim,
      -- push it (untrimmed) onto the recency list.
      { s with query := t, isLoading := false,
               pendingTimers := debCancel s.pendingTimers,
               emittedSearches := t :: s.emittedSearches,
               recentSearches := pushRecentSearch t s.recentSearches }
  | .clearClick =>
      -- handleClear.
      { s with query := "", isLoading := false, apiSuggestions := [],
               pendingTimers := debCancel s.pendingTimers,
               emittedSearches := "" :: s.emittedSearches }
  | .timerElapse env =>
      -- The debounced body fires with the captured text.
      match s.pendingTimers with
      | [] => s
      | (_, t) :: rest =>
          if jsTrim t = "" then
            { s with pendingTimers := rest, apiSuggestions := [],
                     emittedSearches := "" :: s.emittedSearches,
                     isLoading := false }
          else
            { s with pendingTimers := rest,
                     apiSuggestions := fetchTMDBSuggestions hasApiKey t env,
                     emittedSearches := jsTrim t :: s.emittedSearches,
                     recentSearches := pushRecentSearch (jsTrim t) s.recentSearches,
                     requestCount := s.requestCount + remoteRequestCount hasApiKey t env,
                     isLoading := false }

/-- States reachable from the initial state. -/
inductive ReachableSB (hasApiKey : Bool) : SBState → Prop where
  | init : ReachableSB hasApiKey initState
  | step {s : SBState} (e : SBEvent) :
      ReachableSB hasApiKey s → ReachableSB hasApiKey (stepSB hasApiKey s e)

/-! ### Injectivity of the decimal rendering used in suggestion ids -/

/-- Decimal value of a digit-character list, most significant first. -/
def decValue (l : List Char) : Nat :=
  l.foldl (fun a c => 10 * a + (c.toNat - 48)) 0

theorem decValue_append_singleton (l : List Char) (c : Char) :
    decValue (l ++ [c]) = 10 * decValue l + (c.toNat - 48) := by
  simp [decValue, List.foldl_append]

theorem digitChar_toNat {d : Nat} (h : d < 10) :
    (Nat.digitChar d).toNat = 48 + d := by
  interval_cases d <;> rfl

theorem toDigitsCore_acc (f : Nat) :
    ∀ (n : Nat) (ds : List Char),
      Nat.toDigitsCore 10 f n ds = Nat.toDigitsCore 10 f n [] ++ ds := by
  induction f with
  | zero => intro n ds; simp [Nat.toDigitsCore]
  | succ f ih =>
    intro n ds
    simp only [Nat.toDigitsCore]
    by_cases h : n / 10 = 0
    · simp [h]
    · simp only [h, if_false]
      rw [ih (n / 10) [Nat.digitChar (n % 10)],
          ih (n / 10) (Nat.digitChar (n % 10) :: ds)]
      simp

theorem decValue_toDigitsCore (f : Nat) :
    ∀ n, n < 10 ^ f → decValue (Nat.toDigitsCore 10 f n []) = n := by
  induction f with
  | zero => intro n h; interval_cases n; rfl
  | succ f ih =>
    intro n h
    simp only [Nat.toDigitsCore]
    by_cases h0 : n / 10 = 0
    · rw [if_pos h0]
      have hd : n % 10 < 10 := Nat.mod_lt _ (by norm_num)
      simp only [decValue, List.foldl_cons, List.foldl_nil,
        digitChar_toNat hd]
      omega
    · rw [if_neg h0, toDigitsCore_acc, decValue_append_singleton]
      have hd : n % 10 < 10 := Nat.mod_lt _ (by norm_num)
      rw [digitChar_toNat hd, ih (n / 10) ?_]
      · omega
      · have : n < 10 ^ f * 10 := by
          calc n < 10 ^ (f + 1) := h
          _ = 10 ^ f * 10 := by ring
        exact (Nat.div_lt_iff_lt_mul (by norm_num)).mpr this

theorem decValue_toDigits (n : Nat) :
    decValue (Nat.toDigits 10 n) = n := by
  have h1 : n < 10 ^ n := Nat.lt_pow_self (by norm_num) n
  have h2 : (10 : Nat) ^ n ≤ 10 ^ (n + 1) :=
    Nat.pow_le_pow_right (by norm_num) (Nat.le_succ n)
  exact decValue_toDigitsCore (n + 1) n (lt_of_lt_of_le h1 h2)

theorem natRepr_injective : Function.Injective Nat.repr := by
  intro a b h
  have hd : Nat.toDigits 10 a = Nat.toDigits 10 b := by
    have := congrArg String.data h
    simpa [Nat.repr, List.asString] using this
  have := congrArg decValue hd
  simpa [decValue_toDigits] using this

theorem string_data_append (s t : String) :
    (s ++ t).data = s.data ++ t.data := rfl

theorem string_append_left_cancel {s a b : String}
    (h : s ++ a = s ++ b) : a = b := by
  apply String.ext
  have := congrArg String.data h
  rw [string_data_append, string_data_append] at this
  exact List.append_cancel_left this

theorem taggedRepr_injective (tag : String) :
    Function.Injective (fun n => tag ++ Nat.repr n) := by
  intro a b h
  exact natRepr_injective (string_append_left_cancel h)

theorem taggedStr_injective (tag : String) :
    Function.Injective (fun s => tag ++ s) := by
  intro a b h
  exact string_append_left_cancel h

/-! ### Recency-list lemmas -/

theorem pushRecentSearch_eq_cons (t : String) (prev : List String) :
    pushRecentSearch t prev =
      t :: (prev.filter (fun item => item != t)).take 4 := by
  simp [pushRecentSearch, List.take_succ_cons]

theorem pushRecentSearch_length_le (t : String) (prev : List String) :
    (pushRecentSearch t prev).length ≤ 5 := by
  simp only [pushRecentSearch, List.length_take]
  omega

theorem filter_ne_of_not_mem {t : String} {prev : List String}
    (h : t ∉ prev) : prev.filter (fun item => item != t) = prev := by
  apply List.filter_eq_self.mpr
  intro a ha
  simp only [bne_iff_ne, ne_eq, decide_eq_true_eq]
  rintro rfl
  exact h ha

theorem not_mem_filter_ne (t : String) (l : List String) :
    t ∉ l.filter (fun item => item != t) := by
  intro h
  have := (List.mem_filter.mp h).2
  simp at this

theorem pushRecentSearch_head (t : String) (prev : List String) :
    (pushRecentSearch t prev).head? = some t := by
  rw [pushRecentSearch_eq_cons]; rfl

theorem pushRecentSearch_tail_not_mem (t : String) (prev : List String) :
    t ∉ (pushRecentSearch t prev).tail := by
  rw [pushRecentSearch_eq_cons]
  intro h
  exact not_mem_filter_ne t prev ((List.take_sublist _ _).subset h)

theorem pushRecentSearch_count (t : String) (prev : List String) :
    (pushRecentSearch t prev).count t = 1 := by
  rw [pushRecentSearch_eq_cons, List.count_cons_self,
    List.count_eq_zero.mpr]
  · intro h
    exact not_mem_filter_ne t prev ((List.take_sublist _ _).subset h)

theorem pushRecentSearch_idem (t : String) (prev : List String) :
    pushRecentSearch t (pushRecentSearch t prev) = pushRecentSearch t prev := by
  rw [pushRecentSearch_eq_cons t prev]
  rw [pushRecentSearch_eq_cons]
  congr 1
  rw [List.filter_cons]
  simp only [bne_self_eq_false, Bool.false_eq_true, if_false]
  have hsub : (prev.filter (fun item => item != t)).take 4
      ⊆ prev.filter (fun item => item != t) :=
    (List.take_sublist _ _).subset
  rw [List.filter_eq_self.mpr (fun a ha => List.of_mem_filter (hsub ha)),
    List.take_take]
  norm_num

theorem pushRecentSearch_nodup (t : String) {prev : List String}
    (h : prev.Nodup) : (pushRecentSearch t prev).Nodup := by
  rw [pushRecentSearch_eq_cons]
  refine List.Nodup.cons ?_ ((List.take_sublist _ _).nodup (h.filter _))
  intro hmem
  exact not_mem_filter_ne t prev ((List.take_sublist _ _).subset hmem)

/-- Every reachable recency list has at most 5 entries and no duplicate. -/
theorem reachable_recents_inv {key : Bool} {s : SBState}
    (h : ReachableSB key s) :
    s.recentSearches.length ≤ 5 ∧ s.recentSearches.Nodup := by
  induction h with
  | init => simp [initState]
  | step e _ ih =>
    cases e with
    | inputChange t =>
      simp only [stepSB]; split <;> simpa using ih
    | pressEnter =>
      simp only [stepSB]; split
      · exact ih
      · exact ⟨pushRecentSearch_length_le _ _, pushRecentSearch_nodup _ ih.2⟩
    | pressEscape => exact ih
    | suggestionClick t =>
      exact ⟨pushRecentSearch_length_le _ _, pushRecentSearch_nodup _ ih.2⟩
    | clearClick => exact ih
    | timerElapse env =>
      simp only [stepSB]
      split
      · exact ih
      · split
        · simpa using ih
        · exact ⟨pushRecentSearch_length_le _ _, pushRecentSearch_nodup _ ih.2⟩

/-! ### Claim C6 -/

/-- C6: for every input whose trimmed form is empty, and for the
explicit clear action, any pending debounce timer is cancelled, the
suggestion list is cleared, the search callback is synchronously invoked
with the empty string, no remote request is issued, and the recency list
is unchanged. -/
theorem C6_empty_input_and_clear (key : Bool) (s : SBState) (t : String)
    (h : jsTrim t = "") :
    ((stepSB key s (SBEvent.inputChange t)).pendingTimers = [] ∧
     (stepSB key s (SBEvent.inputChange t)).apiSuggestions = [] ∧
     (stepSB key s (SBEvent.inputChange t)).emittedSearches = "" :: s.emittedSearches ∧
     (stepSB key s (SBEvent.inputChange t)).recentSearches = s.recentSearches ∧
     (stepSB key s (SBEvent.inputChange t)).requestCount = s.requestCount) ∧
    ((stepSB key s SBEvent.clearClick).pendingTimers = [] ∧
     (stepSB key s SBEvent.clearClick).apiSuggestions = [] ∧
     (stepSB key s SBEvent.clearClick).emittedSearches = "" :: s.emittedSearches ∧
     (stepSB key s SBEvent.clearClick).recentSearches = s.recentSearches ∧
     (stepSB key s SBEvent.clearClick).requestCount = s.requestCount) := by
  simp [stepSB, h, debCancel]

theorem C6_witness :
    jsTrim "  " = "" ∧
    (stepSB true initState (SBEvent.inputChange "  ")).pendingTimers = [] ∧
    (stepSB true initState (SBEvent.inputChange "  ")).recentSearches
      = initState.recentSearches :=
  ⟨by decide, (C6_empty_input_and_clear true initState "  " (by decide)).1.1,
   (C6_empty_input_and_clear true initState "  " (by decide)).1.2.2.2.1⟩

/-! ### Claim C7 -/

/-- C7: the recency list never exceeds 5 entries in any reachable state,
every recency update preserves the bound, and inserting a distinct entry
into a full list keeps the first 4 old entries and evicts the last. -/
theorem C7_recency_capacity (key : Bool) :
    (∀ s, ReachableSB key s → s.recentSearches.length ≤ 5) ∧
    (∀ t prev, (pushRecentSearch t prev).length ≤ 5) ∧
    (∀ t (prev : List String), prev.length = 5 → t ∉ prev →
       pushRecentSearch t prev = t :: prev.take 4) := by
  refine ⟨fun s h => (reachable_recents_inv h).1, pushRecentSearch_length_le, ?_⟩
  intro t prev _ hmem
  rw [pushRecentSearch_eq_cons, filter_ne_of_not_mem hmem]

theorem C7_witness :
    initState.recentSearches.length ≤ 5 ∧
    (["e", "d", "c", "b", "a"] : List String).length = 5 ∧
    "f" ∉ (["e", "d", "c", "b", "a"] : List String) ∧
    pushRecentSearch "f" ["e", "d", "c", "b", "a"]
      = "f" :: (["e", "d", "c", "b", "a"] : List String).take 4 :=
  ⟨(C7_recency_capacity true).1 initState ReachableSB.init, by decide, by decide,
   (C7_recency_capacity true).2.2 "f" ["e", "d", "c", "b", "a"] (by decide) (by decide)⟩

/-! ### Claim C8 -/

/-- C8: the recency update is idempotent — a second Enter submission of
the same query leaves the recency list unchanged, containing the trimmed
text exactly once, at position 0. -/
theorem C8_recency_idempotent (key : Bool) (s : SBState)
    (h : jsTrim s.query ≠ "") :
    (stepSB key (stepSB key s SBEvent.pressEnter) SBEvent.pressEnter).recentSearches
      = (stepSB key s SBEvent.pressEnter).recentSearches ∧
    (stepSB key s SBEvent.pressEnter).recentSearches.head? = some (jsTrim s.query) ∧
    (stepSB key s SBEvent.pressEnter).recentSearches.count (jsTrim s.query) = 1 ∧
    (∀ t prev, pushRecentSearch t (pushRecentSearch t prev) = pushRecentSearch t prev) := by
  have h1 : stepSB key s SBEvent.pressEnter =
      { s with isLoading := false,
               pendingTimers := debCancel s.pendingTimers,
               emittedSearches := jsTrim s.query :: s.emittedSearches,
               recentSearches := pushRecentSearch (jsTrim s.query) s.recentSearches } := by
    simp [stepSB, h]
  rw [h1]
  refine ⟨?_, pushRecentSearch_head _ _, pushRecentSearch_count _ _,
    pushRecentSearch_idem⟩
  simp [stepSB, h, pushRecentSearch_idem]

theorem C8_witness :
    jsTrim (SBState.query { initState with query := "Marvel" }) ≠ "" ∧
    (stepSB true { initState with query := "Marvel" } SBEvent.pressEnter).recentSearches.head?
      = some (jsTrim (SBState.query { initState with query := "Marvel" })) :=
  ⟨by decide, (C8_recency_idempotent true _ (by decide)).2.1⟩

/-! ### Debounce-timer invariant -/

/-- At most one timer is pending in any reachable state, and a pending
timer always carries the 500ms delay and the current query text. -/
theorem reachable_timers_inv {key : Bool} {s : SBState}
    (h : ReachableSB key s) :
    s.pendingTimers.length ≤ 1 ∧
    ∀ p ∈ s.pendingTimers, p = (debounceWaitMs, s.query) := by
  induction h with
  | init => simp [initState]
  | @step s e _ ih =>
    cases e with
    | inputChange t =>
      simp only [stepSB]; split
      · simp [debCancel]
      · simp [debCall, debCancel, debArm]
    | pressEnter =>
      simp only [stepSB]; split
      · exact ih
      · simp [debCancel]
    | pressEscape => exact ih
    | suggestionClick t => simp [stepSB, debCancel]
    | clearClick => simp [stepSB, debCancel]
    | timerElapse env =>
      rcases hpt : s.pendingTimers with _ | ⟨⟨d, t⟩, rest⟩
      · simp only [stepSB, hpt]
        simp only [hpt] at ih
        exact ih
      · have h1 := ih.1
        rw [hpt] at h1
        simp only [List.length_cons] at h1
        have hrest : rest = [] := List.eq_nil_of_length_eq_zero (by omega)
        subst hrest
        simp only [stepSB, hpt]
        split <;> simp

/-! ### Claim C3 -/

/-- C3: at most one debounce timer is pending in any reachable state;
a non-empty input change cancels any pending timer and re-arms a single
500ms trailing-edge timer carrying the latest text; Enter (on a
non-empty trim) and a suggestion click cancel any pending timer and
emit synchronously in the same step. -/
theorem C3_single_timer (key : Bool) :
    (∀ s, ReachableSB key s →
       s.pendingTimers.length ≤ 1 ∧
       ∀ p ∈ s.pendingTimers, p = (debounceWaitMs, s.query)) ∧
    (∀ s t, jsTrim t ≠ "" →
       (stepSB key s (SBEvent.inputChange t)).pendingTimers
         = [(debounceWaitMs, t)]) ∧
    (∀ s, jsTrim s.query ≠ "" →
       (stepSB key s SBEvent.pressEnter).pendingTimers = [] ∧
       (stepSB key s SBEvent.pressEnter).emittedSearches
         = jsTrim s.query :: s.emittedSearches) ∧
    (∀ s t, (stepSB key s (SBEvent.suggestionClick t)).pendingTimers = [] ∧
       (stepSB key s (SBEvent.suggestionClick t)).emittedSearches
         = t :: s.emittedSearches) := by
  refine ⟨fun s h => reachable_timers_inv h, ?_, ?_, ?_⟩
  · intro s t h
    simp [stepSB, h, debCall, debCancel, debArm]
  · intro s h
    simp [stepSB, h, debCancel]
  · intro s t
    simp [stepSB, debCancel]

theorem C3_witness :
    (initState.pendingTimers.length ≤ 1 ∧
       ∀ p ∈ initState.pendingTimers, p = (debounceWaitMs, initState.query)) ∧
    jsTrim "act" ≠ "" ∧
    (stepSB true initState (SBEvent.inputChange "act")).pendingTimers
      = [(debounceWaitMs, "act")] ∧
    (stepSB true { initState with query := "act" } SBEvent.pressEnter).pendingTimers
      = [] :=
  ⟨(C3_single_timer true).1 initState ReachableSB.init, by decide,
   (C3_single_timer true).2.1 initState "act" (by decide),
   ((C3_single_timer true).2.2.1 { initState with query := "act" } (by decide)).1⟩

/-! ### Claim C2 (corrected: a suggestion click does not trim) -/

/-- C2 as stated is false: `handleSuggestionClick` passes the clicked
text to the search callback and to the recency update verbatim, without
trimming.  At the concrete click text `" X "` the callback receives
`" X "`, not its trim `"X"`, and `" X "`, not `"X"`, is placed at
recency position 0. -/
theorem C2_counterexample :
    (stepSB true initState (SBEvent.suggestionClick " X ")).emittedSearches
      = [" X "] ∧
    (stepSB true initState (SBEvent.suggestionClick " X ")).recentSearches
      = [" X "] ∧
    jsTrim " X " = "X" ∧ (" X " : String) ≠ "X" := by
  refine ⟨?_, ?_, by decide, by decide⟩ <;>
    simp [stepSB, initState, debCancel, pushRecentSearch]

/-- C2 amended: a debounced fire and an Enter submission invoke the
search callback with the trimmed text and push the trimmed text to
recency position 0 (prior case-sensitive-equal occurrence removed,
truncation to 5); a suggestion click does the same with the clicked
text verbatim. -/
theorem C2_submission (key : Bool) (s : SBState) (t : String) :
    (jsTrim s.query ≠ "" →
       (stepSB key s SBEvent.pressEnter).emittedSearches
         = jsTrim s.query :: s.emittedSearches ∧
       (stepSB key s SBEvent.pressEnter).recentSearches
         = pushRecentSearch (jsTrim s.query) s.recentSearches) ∧
    (∀ d env, s.pendingTimers = [(d, t)] → jsTrim t ≠ "" →
       (stepSB key s (SBEvent.timerElapse env)).emittedSearches
         = jsTrim t :: s.emittedSearches ∧
       (stepSB key s (SBEvent.timerElapse env)).recentSearches
         = pushRecentSearch (jsTrim t) s.recentSearches) ∧
    ((stepSB key s (SBEvent.suggestionClick t)).emittedSearches
       = t :: s.emittedSearches ∧
     (stepSB key s (SBEvent.suggestionClick t)).recentSearches
       = pushRecentSearch t s.recentSearches) ∧
    (∀ prev, (pushRecentSearch t prev).head? = some t ∧
       t ∉ (pushRecentSearch t prev).tail ∧
       (pushRecentSearch t prev).length ≤ 5) := by
  refine ⟨?_, ?_, ?_, ?_⟩
  · intro h
    simp [stepSB, h, debCancel]
  · intro d env hpt h
    simp [stepSB, hpt, h]
  · simp [stepSB, debCancel]
  · intro prev
    exact ⟨pushRecentSearch_head t prev, pushRecentSearch_tail_not_mem t prev,
      pushRecentSearch_length_le t prev⟩

theorem C2_witness :
    jsTrim (SBState.query { initState with query := "Marvel" }) ≠ "" ∧
    (stepSB true { initState with query := "Marvel" } SBEvent.pressEnter).emittedSearches
      = jsTrim (SBState.query { initState with query := "Marvel" })
          :: ({ initState with query := "Marvel" } : SBState).emittedSearches ∧
    (stepSB true { initState with query := "Marvel" } SBEvent.pressEnter).recentSearches
      = pushRecentSearch (jsTrim (SBState.query { initState with query := "Marvel" }))
          ({ initState with query := "Marvel" } : SBState).recentSearches :=
  ⟨by decide,
   ((C2_submission true { initState with query := "Marvel" } "x").1 (by decide)).1,
   ((C2_submission true { initState with query := "Marvel" } "x").1 (by decide)).2⟩

/-! ### Claim C4 (corrected: a rejected title fetch aborts the batch) -/

/-- C4 as stated is false: the single `try` block wraps both fetches, so
a rejected title-search fetch jumps to the `catch` and the whole batch
comes back empty — the person matches are lost, not preserved.  Shown at
a concrete input where the person fetch succeeds with one record. -/
theorem C4_counterexample :
    fetchTMDBSuggestions true "tom"
        { movieFetch := FetchOutcome.rejected,
          personFetch := FetchOutcome.ok
            (some [{ id := 1, name := "Tom Hanks", known_for_department := "Acting" }]) }
      = [] ∧
    personSuggestionOf
        { id := 1, name := "Tom Hanks", known_for_department := "Acting" } ∉
      fetchTMDBSuggestions true "tom"
        { movieFetch := FetchOutcome.rejected,
          personFetch := FetchOutcome.ok
            (some [{ id := 1, name := "Tom Hanks", known_for_department := "Acting" }]) } := by
  constructor <;> decide

/-- C4 amended: a remote response that resolves with a non-success
status degrades gracefully — that endpoint contributes zero entries and
the other endpoint's matches survive; but a *rejected* fetch (thrown
error) on either endpoint empties the whole batch. -/
theorem C4_graceful_on_notOk (q : String) (hq : jsTrim q ≠ "")
    (movies : List TMDBMovie) (people : List TMDBPerson) :
    fetchTMDBSuggestions true q
        { movieFetch := FetchOutcome.notOk,
          personFetch := FetchOutcome.ok (some people) }
      = (people.take 3).map personSuggestionOf ++ genreSuggestionsOf q ∧
    fetchTMDBSuggestions true q
        { movieFetch := FetchOutcome.ok (some movies),
          personFetch := FetchOutcome.notOk }
      = (movies.take 4).map movieSuggestionOf ++ genreSuggestionsOf q ∧
    (∀ env : RemoteEnv, env.movieFetch = FetchOutcome.rejected →
       fetchTMDBSuggestions true q env = []) ∧
    (∀ env : RemoteEnv, env.personFetch = FetchOutcome.rejected →
       fetchTMDBSuggestions true q env = []) := by
  refine ⟨?_, ?_, ?_, ?_⟩
  · simp [fetchTMDBSuggestions, hq, FetchOutcome.page]
  · simp [fetchTMDBSuggestions, hq, FetchOutcome.page]
  · rintro ⟨mf, pf⟩ h
    cases h
    simp [fetchTMDBSuggestions, hq]
  · rintro ⟨mf, pf⟩ h
    cases h
    cases mf <;> simp [fetchTMDBSuggestions, hq]

theorem C4_witness :
    jsTrim "tom" ≠ "" ∧
    fetchTMDBSuggestions true "tom"
        { movieFetch := FetchOutcome.notOk,
          personFetch := FetchOutcome.ok
            (some [{ id := 1, name := "Tom Hanks", known_for_department := "Acting" }]) }
      = (([{ id := 1, name := "Tom Hanks", known_for_department := "Acting" }] :
            List TMDBPerson).take 3).map personSuggestionOf
          ++ genreSuggestionsOf "tom" :=
  ⟨by decide,
   (C4_graceful_on_notOk "tom" (by decide) []
      [{ id := 1, name := "Tom Hanks", known_for_department := "Acting" }]).1⟩

/-! ### Claim C5 (corrected: genre matches vanish without an API key) -/

/-- C5 as stated is false: `fetchTMDBSuggestions` returns `[]` before
computing genre matches when the key is missing, so local genre
substring matches do not appear.  Concretely, with no key and query
`"Actio"`, genre `"Action"` is a substring match yet the suggestion
list is empty. -/
theorem C5_counterexample :
    getFilteredSuggestions "Actio" []
        (fetchTMDBSuggestions false "Actio"
          { movieFetch := FetchOutcome.notOk, personFetch := FetchOutcome.notOk })
      = [] ∧
    matchingGenres "Actio" = ["Action"] := by
  constructor <;> decide

/-- C5 amended: with a missing/falsy API key the remote lookup routine
returns the empty batch and issues no request, and the recency matches
(the only local source outside that routine) still appear; genre
matches, computed inside the guarded routine, do not. -/
theorem C5_no_key (q : String) (recents : List String) (env : RemoteEnv) :
    fetchTMDBSuggestions false q env = [] ∧
    remoteRequestCount false q env = 0 ∧
    (jsTrim q ≠ "" →
       getFilteredSuggestions q recents (fetchTMDBSuggestions false q env)
         = ((recents.filter (fun search =>
              jsIncludes (jsToLower search) (jsTrim (jsToLower q)) &&
              jsToLower search != jsTrim (jsToLower q))).map
             (fun search => ({ id := "recent-" ++ search, text := search,
                               type := SuggestionType.recent } : SearchSuggestion))).take 8) := by
  refine ⟨by simp [fetchTMDBSuggestions], by simp [remoteRequestCount], ?_⟩
  intro h
  simp [getFilteredSuggestions, fetchTMDBSuggestions, h]

theorem C5_witness :
    jsTrim "act" ≠ "" ∧
    getFilteredSuggestions "act" ["Action Hero"]
        (fetchTMDBSuggestions false "act"
          { movieFetch := FetchOutcome.notOk, personFetch := FetchOutcome.notOk })
      = (((["Action Hero"] : List String).filter (fun search =>
            jsIncludes (jsToLower search) (jsTrim (jsToLower "act")) &&
            jsToLower search != jsTrim (jsToLower "act"))).map
          (fun search => ({ id := "recent-" ++ search, text := search,
                            type := SuggestionType.recent } : SearchSuggestion))).take 8 :=
  ⟨by decide,
   (C5_no_key "act" ["Action Hero"]
      { movieFetch := FetchOutcome.notOk, personFetch := FetchOutcome.notOk }).2.2
     (by decide)⟩

/-! ### Claim C1 (merge order and caps) -/

/-- Spec-side definition (merge contract, clause 1): recency entries
that are substring matches of the query and not exact-equal to it, in
source order; matching is case-insensitive. -/
def specRecencyMatches (query : String) (recencyList : List String) :
    List SearchSuggestion :=
  (recencyList.filter (fun entry =>
    jsIncludes (jsToLower entry) (jsToLower query) &&
    jsToLower entry != jsToLower query)).map
    (fun entry => ({ id := "recent-" ++ entry, text := entry,
                     type := SuggestionType.recent } : SearchSuggestion))

/-- Spec-side definition (remote-fetch contract, clause 3): local
genre-name substring matches of the query, at most 2, in source order. -/
def specGenreMatches (query : String) : List SearchSuggestion :=
  ((popularGenres.filter (fun genre =>
    jsIncludes (jsToLower genre) (jsToLower query) &&
    jsToLower genre != jsToLower query)).take 2).enum.map
    (fun ig => ({ id := "genre-" ++ Nat.repr ig.1, text := ig.2,
                  type := SuggestionType.genre } : SearchSuggestion))

/-- Spec-side definition (merge contract): recency matches, then at most
4 remote title matches, then at most 3 remote person matches, then at
most 2 local genre matches, concatenated in this order and truncated to
8 entries. -/
def specMergedList (query : String) (recencyList : List String)
    (movies : List TMDBMovie) (people : List TMDBPerson) :
    List SearchSuggestion :=
  (specRecencyMatches query recencyList
    ++ (movies.map movieSuggestionOf).take 4
    ++ (people.map personSuggestionOf).take 3
    ++ specGenreMatches query).take 8

/-- C1: for every recency list, non-empty trimmed query and successful
remote batch, the displayed list is exactly the spec's concatenation —
matching recency entries, at most 4 title matches, at most 3 person
matches, at most 2 genre matches — truncated to 8, order preserved. -/
theorem C1_merge_order (q : String) (recents : List String)
    (movies : List TMDBMovie) (people : List TMDBPerson)
    (hq : jsTrim q = q) (hne : q ≠ "") :
    getFilteredSuggestions q recents
        (fetchTMDBSuggestions true q
          { movieFetch := FetchOutcome.ok (some movies),
            personFetch := FetchOutcome.ok (some people) })
      = specMergedList q recents movies people ∧
    (specMergedList q recents movies people).length ≤ 8 ∧
    ((movies.map movieSuggestionOf).take 4).length ≤ 4 ∧
    ((people.map personSuggestionOf).take 3).length ≤ 3 ∧
    (specGenreMatches q).length ≤ 2 := by
  have hne' : jsTrim q ≠ "" := by rw [hq]; exact hne
  refine ⟨?_, ?_, ?_, ?_, ?_⟩
  · simp [getFilteredSuggestions, fetchTMDBSuggestions, hne',
      specMergedList, specRecencyMatches, specGenreMatches,
      genreSuggestionsOf, matchingGenres, jsTrim_jsToLower, hq, hne,
      List.map_take, List.append_assoc, FetchOutcome.page]
  · simp only [specMergedList, List.length_take]
    omega
  · simp only [List.length_take]
    omega
  · simp only [List.length_take]
    omega
  · simp only [specGenreMatches, List.length_map, List.enum_length,
      List.length_take]
    omega

theorem C1_witness :
    jsTrim "act" = "act" ∧ ("act" : String) ≠ "" ∧
    getFilteredSuggestions "act" ["Action Hero"]
        (fetchTMDBSuggestions true "act"
          { movieFetch := FetchOutcome.ok
              (some [{ id := 7, title := "Batman", release_date := "2005-06-15",
                       vote_average := 8, poster_path := none }]),
            personFetch := FetchOutcome.ok (some []) })
      = specMergedList "act" ["Action Hero"]
          [{ id := 7, title := "Batman", release_date := "2005-06-15",
             vote_average := 8, poster_path := none }] [] :=
  ⟨by decide, by decide,
   (C1_merge_order "act" ["Action Hero"]
      [{ id := 7, title := "Batman", release_date := "2005-06-15",
         vote_average := 8, poster_path := none }] []
      (by decide) (by decide)).1⟩

/-! ### Claim C9 (identifier uniqueness) -/

theorem head_append_of_head (tag : String) (c : Char) {x : String}
    (h : tag.data.head? = some c) : (tag ++ x).data.head? = some c := by
  rw [string_data_append, List.head?_append, h]
  rfl

theorem snd_mem_of_mem_enum {α : Type} {l : List α} {p : Nat × α}
    (h : p ∈ l.enum) : p.2 ∈ l := by
  have := List.mem_map_of_mem Prod.snd h
  rwa [List.enum_map_snd] at this

theorem mem_parts_id_head {q : String} {ml : List TMDBMovie}
    {pl : List TMDBPerson} {s : SearchSuggestion}
    (h : s ∈ ml.map movieSuggestionOf ++ pl.map personSuggestionOf
           ++ genreSuggestionsOf q) :
    s.id.data.head? = some 'm' ∨ s.id.data.head? = some 'p' ∨
    s.id.data.head? = some 'g' := by
  rcases List.mem_append.mp h with h1 | h2
  · rcases List.mem_append.mp h1 with hm | hp
    · rcases List.mem_map.mp hm with ⟨m, _, rfl⟩
      exact Or.inl (head_append_of_head "movie-" 'm' rfl)
    · rcases List.mem_map.mp hp with ⟨p, _, rfl⟩
      exact Or.inr (Or.inl (head_append_of_head "person-" 'p' rfl))
  · rcases List.mem_map.mp h2 with ⟨ig, _, rfl⟩
    exact Or.inr (Or.inr (head_append_of_head "genre-" 'g' rfl))

theorem parts_ids_nodup (q : String) (ml : List TMDBMovie)
    (pl : List TMDBPerson)
    (hm : (ml.map TMDBMovie.id).Nodup) (hp : (pl.map TMDBPerson.id).Nodup) :
    ((ml.map movieSuggestionOf ++ pl.map personSuggestionOf
        ++ genreSuggestionsOf q).map SearchSuggestion.id).Nodup := by
  have hAm : (ml.map movieSuggestionOf).map SearchSuggestion.id
      = (ml.map TMDBMovie.id).map (fun n => "movie-" ++ Nat.repr n) := by
    simp only [List.map_map]; rfl
  have hBp : (pl.map personSuggestionOf).map SearchSuggestion.id
      = (pl.map TMDBPerson.id).map (fun n => "person-" ++ Nat.repr n) := by
    simp only [List.map_map]; rfl
  have hCg : (genreSuggestionsOf q).map SearchSuggestion.id
      = ((matchingGenres q).enum.map Prod.fst).map
          (fun n => "genre-" ++ Nat.repr n) := by
    simp only [genreSuggestionsOf, List.map_map]; rfl
  have memAm : ∀ x ∈ (ml.map movieSuggestionOf).map SearchSuggestion.id,
      x.data.head? = some 'm' := by
    intro x hx
    rcases List.mem_map.mp hx with ⟨s', hs', rfl⟩
    rcases List.mem_map.mp hs' with ⟨m, _, rfl⟩
    exact head_append_of_head "movie-" 'm' rfl
  have memBp : ∀ x ∈ (pl.map personSuggestionOf).map SearchSuggestion.id,
      x.data.head? = some 'p' := by
    intro x hx
    rcases List.mem_map.mp hx with ⟨s', hs', rfl⟩
    rcases List.mem_map.mp hs' with ⟨p, _, rfl⟩
    exact head_append_of_head "person-" 'p' rfl
  have memCg : ∀ x ∈ (genreSuggestionsOf q).map SearchSuggestion.id,
      x.data.head? = some 'g' := by
    intro x hx
    rcases List.mem_map.mp hx with ⟨s', hs', rfl⟩
    rcases List.mem_map.mp hs' with ⟨ig, _, rfl⟩
    exact head_append_of_head "genre-" 'g' rfl
  rw [List.map_append, List.map_append]
  refine List.nodup_append.mpr ⟨List.nodup_append.mpr ⟨?_, ?_, ?_⟩, ?_, ?_⟩
  · rw [hAm]
    exact List.Nodup.map (taggedRepr_injective "movie-") hm
  · rw [hBp]
    exact List.Nodup.map (taggedRepr_injective "person-") hp
  · rw [List.disjoint_left]
    intro a ha hb
    have := (memAm a ha).symm.trans (memBp a hb)
    simp at this
  · rw [hCg, List.enum_map_fst]
    exact List.Nodup.map (taggedRepr_injective "genre-") (List.nodup_range _)
  · rw [List.disjoint_left]
    intro a ha hb
    rcases List.mem_append.mp ha with h1 | h1
    · have := (memAm a h1).symm.trans (memCg a hb)
      simp at this
    · have := (memBp a h1).symm.trans (memCg a hb)
      simp at this

theorem fetch_id_head {key : Bool} {q : String} {env : RemoteEnv}
    {s : SearchSuggestion} (h : s ∈ fetchTMDBSuggestions key q env) :
    s.id.data.head? = some 'm' ∨ s.id.data.head? = some 'p' ∨
    s.id.data.head? = some 'g' := by
  rcases env with ⟨mf, pf⟩
  by_cases hc : (key = false ∨ jsTrim q = "")
  · simp only [fetchTMDBSuggestions, if_pos hc] at h
    simp at h
  · simp only [fetchTMDBSuggestions, if_neg hc] at h
    cases mf <;> cases pf <;>
      first
        | exact mem_parts_id_head h
        | (simp at h)

theorem fetch_ids_nodup {key : Bool} {q : String} {env : RemoteEnv}
    (hm : (env.movieFetch.page.map TMDBMovie.id).Nodup)
    (hp : (env.personFetch.page.map TMDBPerson.id).Nodup) :
    ((fetchTMDBSuggestions key q env).map SearchSuggestion.id).Nodup := by
  rcases env with ⟨mf, pf⟩
  have hm4 : ((mf.page.take 4).map TMDBMovie.id).Nodup := by
    rw [List.map_take]
    exact List.Sublist.nodup (List.take_sublist _ _) hm
  have hp3 : ((pf.page.take 3).map TMDBPerson.id).Nodup := by
    rw [List.map_take]
    exact List.Sublist.nodup (List.take_sublist _ _) hp
  by_cases hc : (key = false ∨ jsTrim q = "")
  · simp [fetchTMDBSuggestions, hc]
  · simp only [fetchTMDBSuggestions, if_neg hc]
    cases mf <;> cases pf <;>
      first
        | exact parts_ids_nodup q _ _ hm4 hp3
        | simp

/-- C9: within one suggestion batch built for a query, all suggestion
identifiers are distinct, provided each remote endpoint's page carries
distinct numeric identifiers and the recency list is deduplicated (as
every reachable recency list is). -/
theorem C9_unique_ids (key : Bool) (q : String) (recents : List String)
    (env : RemoteEnv) (hrec : recents.Nodup)
    (hm : (env.movieFetch.page.map TMDBMovie.id).Nodup)
    (hp : (env.personFetch.page.map TMDBPerson.id).Nodup) :
    ((getFilteredSuggestions q recents
        (fetchTMDBSuggestions key q env)).map SearchSuggestion.id).Nodup := by
  by_cases hq : jsTrim q = ""
  · simp [getFilteredSuggestions, hq]
  · simp only [getFilteredSuggestions, if_neg hq]
    refine List.Sublist.nodup
      (List.Sublist.map _ (List.take_sublist _ _)) ?_
    rw [List.map_append]
    refine List.nodup_append.mpr ⟨?_, fetch_ids_nodup hm hp, ?_⟩
    · have hX : ((recents.filter (fun search =>
          jsIncludes (jsToLower search) (jsTrim (jsToLower q)) &&
          jsToLower search != jsTrim (jsToLower q))).map
            (fun search => ({ id := "recent-" ++ search, text := search,
                              type := SuggestionType.recent } : SearchSuggestion))).map
          SearchSuggestion.id
          = (recents.filter (fun search =>
              jsIncludes (jsToLower search) (jsTrim (jsToLower q)) &&
              jsToLower search != jsTrim (jsToLower q))).map
              (fun search => "recent-" ++ search) := by
        simp only [List.map_map]; rfl
      rw [hX]
      exact List.Nodup.map (taggedStr_injective "recent-") (hrec.filter _)
    · rw [List.disjoint_left]
      intro a ha hb
      have hA : a.data.head? = some 'r' := by
        rcases List.mem_map.mp ha with ⟨s', hs', rfl⟩
        rcases List.mem_map.mp hs' with ⟨r, _, rfl⟩
        exact head_append_of_head "recent-" 'r' rfl
      rcases List.mem_map.mp hb with ⟨s2, hs2, heq⟩
      have hB := fetch_id_head hs2
      rw [heq] at hB
      rcases hB with h | h | h <;>
        · rw [hA] at h
          simp at h

theorem C9_witness :
    (["Action Hero"] : List String).Nodup ∧
    ((getFilteredSuggestions "act" ["Action Hero"]
        (fetchTMDBSuggestions true "act"
          { movieFetch := FetchOutcome.ok
              (some [{ id := 7, title := "Batman", release_date := "",
                       vote_average := 0, poster_path := none }]),
            personFetch := FetchOutcome.ok
              (some [{ id := 7, name := "Tom Hanks",
                       known_for_department := "Acting" }]) })).map
      SearchSuggestion.id).Nodup :=
  ⟨by decide,
   C9_unique_ids true "act" ["Action Hero"]
     { movieFetch := FetchOutcome.ok
         (some [{ id := 7, title := "Batman", release_date := "",
                  vote_average := 0, poster_path := none }]),
       personFetch := FetchOutcome.ok
         (some [{ id := 7, name := "Tom Hanks",
                  known_for_department := "Acting" }]) }
     (by decide) (by decide) (by decide)⟩

/-! ### Claim C10 (case-insensitive local filters) -/

theorem mem_matchingGenres {q g : String} (h : g ∈ matchingGenres q) :
    jsIncludes (jsToLower g) (jsToLower q) = true ∧
    jsToLower g ≠ jsToLower q := by
  have h1 := (List.take_sublist _ _).subset h
  have h2 := List.of_mem_filter h1
  simp only [Bool.and_eq_true, bne_iff_ne] at h2
  exact h2

theorem mem_parts_type {q : String} {ml : List TMDBMovie}
    {pl : List TMDBPerson} {s : SearchSuggestion}
    (h : s ∈ ml.map movieSuggestionOf ++ pl.map personSuggestionOf
           ++ genreSuggestionsOf q) :
    s.type = SuggestionType.movie ∨ s.type = SuggestionType.person ∨
    (s.type = SuggestionType.genre ∧ s.text ∈ matchingGenres q) := by
  rcases List.mem_append.mp h with h1 | h2
  · rcases List.mem_append.mp h1 with hm | hp
    · rcases List.mem_map.mp hm with ⟨m, _, rfl⟩
      exact Or.inl rfl
    · rcases List.mem_map.mp hp with ⟨p, _, rfl⟩
      exact Or.inr (Or.inl rfl)
  · rcases List.mem_map.mp h2 with ⟨ig, hig, rfl⟩
    exact Or.inr (Or.inr ⟨rfl, snd_mem_of_mem_enum hig⟩)

theorem mem_fetch_type {key : Bool} {q : String} {env : RemoteEnv}
    {s : SearchSuggestion} (h : s ∈ fetchTMDBSuggestions key q env) :
    s.type = SuggestionType.movie ∨ s.type = SuggestionType.person ∨
    (s.type = SuggestionType.genre ∧ s.text ∈ matchingGenres q) := by
  rcases env with ⟨mf, pf⟩
  by_cases hc : (key = false ∨ jsTrim q = "")
  · simp only [fetchTMDBSuggestions, if_pos hc] at h
    simp at h
  · simp only [fetchTMDBSuggestions, if_neg hc] at h
    cases mf <;> cases pf <;>
      first
        | exact mem_parts_type h
        | (simp at h)

/-- C10: every recency or genre entry of the merged list matches the
query case-insensitively — its lowercased text contains the lowercased
trimmed query as a substring and differs from it — so a candidate that
differs from the query only in letter case is never suggested. -/
theorem C10_case_insensitive_filters (key : Bool) (q : String)
    (recents : List String) (env : RemoteEnv) (s : SearchSuggestion)
    (hmem : s ∈ getFilteredSuggestions q recents
                  (fetchTMDBSuggestions key q env))
    (htype : s.type = SuggestionType.recent ∨ s.type = SuggestionType.genre) :
    jsIncludes (jsToLower s.text) (jsTrim (jsToLower q)) = true ∧
    jsToLower s.text ≠ jsTrim (jsToLower q) := by
  by_cases hq : jsTrim q = ""
  · simp only [getFilteredSuggestions, if_pos hq] at hmem
    simp at hmem
  · simp only [getFilteredSuggestions, if_neg hq] at hmem
    have hmem' := (List.take_sublist _ _).subset hmem
    rcases List.mem_append.mp hmem' with hrec | hapi
    · rcases List.mem_map.mp hrec with ⟨r, hr, rfl⟩
      have h3 := List.of_mem_filter hr
      simp only [Bool.and_eq_true, bne_iff_ne] at h3
      exact ⟨h3.1, h3.2⟩
    · rcases mem_fetch_type hapi with hty | hty | ⟨hty, htext⟩
      · rcases htype with h | h <;> (rw [hty] at h; simp at h)
      · rcases htype with h | h <;> (rw [hty] at h; simp at h)
      · obtain ⟨hinc, hne⟩ := mem_matchingGenres htext
        constructor
        · exact occursIn_trans hinc (trim_occursIn _)
        · intro heq
          have hab : occursIn (jsToLower q).data (jsTrim (jsToLower q)).data := by
            rw [← heq]
            exact hinc
          have heq2 : (jsTrim (jsToLower q)).data = (jsToLower q).data :=
            occursIn_antisymm hab (trim_occursIn _)
          exact hne (heq.trans (String.ext heq2))

theorem C10_witness :
    ({ id := "recent-" ++ "Action Movie", text := "Action Movie",
       type := SuggestionType.recent } : SearchSuggestion)
      ∈ getFilteredSuggestions "acti" ["Action Movie"]
          (fetchTMDBSuggestions false "acti"
            { movieFetch := FetchOutcome.notOk,
              personFetch := FetchOutcome.notOk }) ∧
    jsIncludes (jsToLower "Action Movie") (jsTrim (jsToLower "acti")) = true ∧
    jsToLower "Action Movie" ≠ jsTrim (jsToLower "acti") :=
  ⟨by decide,
   (C10_case_insensitive_filters false "acti" ["Action Movie"]
      { movieFetch := FetchOutcome.notOk, personFetch := FetchOutcome.notOk }
      { id := "recent-" ++ "Action Movie", text := "Action Movie",
        type := SuggestionType.recent }
      (by decide) (Or.inl rfl)).1,
   (C10_case_insensitive_filters false "acti" ["Action Movie"]
      { movieFetch := FetchOutcome.notOk, personFetch := FetchOutcome.notOk }
      { id := "recent-" ++ "Action Movie", text := "Action Movie",
        type := SuggestionType.recent }
      (by decide) (Or.inl rfl)).2⟩
